import Mathlib

/-
Verification development for the SecuriWatch threat-detection pipeline
(python package `securitywatch`).  The Python sources are shallowly embedded:
timestamps (datetime values) become integers counting seconds, floats become
rationals, dataclasses become structures, and the insertion-ordered Python
dict/Counter objects become association lists built in insertion order.
Every definition is a direct translation of the function it is named after;
comments cite the source file.
-/

namespace SecuriWatch

/-- Severity levels of a security event (models/events.py documents the fixed
four levels low, medium, high, critical). -/
inductive Sev where
  | low
  | medium
  | high
  | critical
deriving DecidableEq, Repr

/-- Embedding of the `SecurityEvent` dataclass (models/events.py).  The
`timestamp` is in seconds (datetime values are totally ordered and only ever
subtracted, via `total_seconds()`, or reduced to hour/day fields). -/
structure SecurityEvent where
  timestamp : ℤ
  event_type : String
  source_ip : String
  username : String
  hostname : String
  details : String
  severity : Sev
  log_source : String
deriving DecidableEq, Repr

/-- Minimum of a list of integers; the Python code obtains it as the head of
the sorted timestamp list (`timestamps[0]` after `sort()`), or by `min(...)`. -/
def listMin : List ℤ → ℤ
  | [] => 0
  | [t] => t
  | t :: u :: ts => min t (listMin (u :: ts))

/-- Maximum of a list of integers; the Python code obtains it as the last
element of the sorted timestamp list (`timestamps[-1]`), or by `max(...)`. -/
def listMax : List ℤ → ℤ
  | [] => 0
  | [t] => t
  | t :: u :: ts => max t (listMax (u :: ts))

theorem listMin_le_of_mem {l : List ℤ} {x : ℤ} (hx : x ∈ l) : listMin l ≤ x := by
  induction l with
  | nil => cases hx
  | cons t ts ih =>
    cases ts with
    | nil =>
      rcases List.mem_cons.mp hx with h | h
      · simp [listMin, h]
      · cases h
    | cons u us =>
      rcases List.mem_cons.mp hx with h | h
      · simp [listMin, h, min_le_left]
      · exact le_trans (by simp [listMin, min_le_right]) (ih h)

theorem le_listMax_of_mem {l : List ℤ} {x : ℤ} (hx : x ∈ l) : x ≤ listMax l := by
  induction l with
  | nil => cases hx
  | cons t ts ih =>
    cases ts with
    | nil =>
      rcases List.mem_cons.mp hx with h | h
      · simp [listMax, h]
      · cases h
    | cons u us =>
      rcases List.mem_cons.mp hx with h | h
      · simp [listMax, h, le_max_left]
      · exact le_trans (ih h) (by simp [listMax, le_max_right])

theorem listMin_mem {l : List ℤ} (h : l ≠ []) : listMin l ∈ l := by
  induction l with
  | nil => exact absurd rfl h
  | cons t ts ih =>
    cases ts with
    | nil => simp [listMin]
    | cons u us =>
      rcases min_cases t (listMin (u :: us)) with ⟨heq, _⟩ | ⟨heq, _⟩
      · simp [listMin, heq]
      · exact List.mem_cons.mpr (Or.inr (by rw [show listMin (t :: u :: us) = min t (listMin (u :: us)) from rfl, heq]; exact ih (by simp)))

theorem listMax_mem {l : List ℤ} (h : l ≠ []) : listMax l ∈ l := by
  induction l with
  | nil => exact absurd rfl h
  | cons t ts ih =>
    cases ts with
    | nil => simp [listMax]
    | cons u us =>
      rcases max_cases t (listMax (u :: us)) with ⟨heq, _⟩ | ⟨heq, _⟩
      · simp [listMax, heq]
      · exact List.mem_cons.mpr (Or.inr (by rw [show listMax (t :: u :: us) = max t (listMax (u :: us)) from rfl, heq]; exact ih (by simp)))

theorem listMin_le_listMax {l : List ℤ} (h : l ≠ []) : listMin l ≤ listMax l :=
  le_trans (listMin_le_of_mem (listMax_mem h)) le_rfl

/-- Worker for first-occurrence deduplication, carrying the set of keys
already seen. -/
def firstDedupAux {α : Type} [DecidableEq α] (seen : List α) : List α → List α
  | [] => []
  | k :: rest =>
    if k ∈ seen then firstDedupAux seen rest else k :: firstDedupAux (k :: seen) rest

/-- First-occurrence deduplication: the order in which a Python `dict` (or
`DataFrame.unique()`) enumerates keys, namely in order of first insertion;
also the carrier of `len(set(...))` distinct counts. -/
def firstDedup {α : Type} [DecidableEq α] (l : List α) : List α := firstDedupAux [] l

theorem mem_firstDedupAux {α : Type} [DecidableEq α] {l seen : List α} {x : α} :
    x ∈ firstDedupAux seen l ↔ x ∈ l ∧ x ∉ seen := by
  induction l generalizing seen with
  | nil => simp [firstDedupAux]
  | cons k rest ih =>
    by_cases hk : k ∈ seen
    · rw [show firstDedupAux seen (k :: rest) = firstDedupAux seen rest from by
        simp [firstDedupAux, hk]]
      rw [ih]
      constructor
      · rintro ⟨h1, h2⟩
        exact ⟨List.mem_cons.mpr (Or.inr h1), h2⟩
      · rintro ⟨h1, h2⟩
        rcases List.mem_cons.mp h1 with h | h
        · exact absurd (h ▸ hk) h2
        · exact ⟨h, h2⟩
    · rw [show firstDedupAux seen (k :: rest) = k :: firstDedupAux (k :: seen) rest from by
        simp [firstDedupAux, hk]]
      rw [List.mem_cons, ih]
      constructor
      · rintro (h | ⟨h1, h2⟩)
        · exact ⟨List.mem_cons.mpr (Or.inl h), h ▸ hk⟩
        · exact ⟨List.mem_cons.mpr (Or.inr h1), fun hs => h2 (List.mem_cons.mpr (Or.inr hs))⟩
      · rintro ⟨h1, h2⟩
        rcases List.mem_cons.mp h1 with h | h
        · exact Or.inl h
        · by_cases hxk : x = k
          · exact Or.inl hxk
          · exact Or.inr ⟨h, fun hs => by
              rcases List.mem_cons.mp hs with h3 | h3
              · exact hxk h3
              · exact h2 h3⟩

theorem firstDedupAux_nodup {α : Type} [DecidableEq α] (seen l : List α) : (firstDedupAux seen l).Nodup := by
  induction l generalizing seen with
  | nil => simp [firstDedupAux]
  | cons k rest ih =>
    by_cases hk : k ∈ seen
    · rw [show firstDedupAux seen (k :: rest) = firstDedupAux seen rest from by
        simp [firstDedupAux, hk]]
      exact ih seen
    · rw [show firstDedupAux seen (k :: rest) = k :: firstDedupAux (k :: seen) rest from by
        simp [firstDedupAux, hk]]
      refine List.nodup_cons.mpr ⟨?_, ih (k :: seen)⟩
      intro hmem
      have := (mem_firstDedupAux.mp hmem).2
      exact this (List.mem_cons.mpr (Or.inl rfl))

theorem mem_firstDedup {α : Type} [DecidableEq α] {l : List α} {x : α} :
    x ∈ firstDedup l ↔ x ∈ l := by
  rw [firstDedup, mem_firstDedupAux]
  simp

theorem firstDedup_nodup {α : Type} [DecidableEq α] (l : List α) : (firstDedup l).Nodup :=
  firstDedupAux_nodup [] l

theorem firstDedupAux_eq_nil {α : Type} [DecidableEq α] {seen l : List α} (h : ∀ x ∈ l, x ∈ seen) :
    firstDedupAux seen l = [] := by
  induction l generalizing seen with
  | nil => simp [firstDedupAux]
  | cons k rest ih =>
    have hk : k ∈ seen := h k (List.mem_cons.mpr (Or.inl rfl))
    rw [show firstDedupAux seen (k :: rest) = firstDedupAux seen rest from by
      simp [firstDedupAux, hk]]
    exact ih (fun x hx => h x (List.mem_cons.mpr (Or.inr hx)))

theorem firstDedup_const {α : Type} [DecidableEq α] {l : List α} {a : α} (hne : l ≠ [])
    (hall : ∀ x ∈ l, x = a) : firstDedup l = [a] := by
  cases l with
  | nil => exact absurd rfl hne
  | cons k rest =>
    have hk : k = a := hall k (by simp)
    rw [firstDedup]
    have hseen : ∀ x ∈ rest, x ∈ [k] := by
      intro x hx
      have := hall x (List.mem_cons.mpr (Or.inr hx))
      simp [this, hk]
    have : firstDedupAux [] (k :: rest) = k :: firstDedupAux [k] rest := by
      simp [firstDedupAux]
    rw [this, firstDedupAux_eq_nil hseen, hk]

/-- Insertion-ordered counter: the embedding of a Python `collections.Counter`
(an insertion-ordered dict from keys to positive counts). -/
def counterAdd {α : Type} [DecidableEq α] : List (α × ℕ) → α → List (α × ℕ)
  | [], k => [(k, 1)]
  | (k0, n) :: rest, k => if k0 = k then (k0, n + 1) :: rest else (k0, n) :: counterAdd rest k

/-- Builds the counter of a list of keys, counting in iteration order exactly
as the Python loops `counter[key] += 1` do. -/
def counterOf {α : Type} [DecidableEq α] (l : List α) : List (α × ℕ) :=
  l.foldl counterAdd []

/-- Lookup in a counter: `counter.get(k, 0)` / `counter[k]`. -/
def counterGet {α : Type} [DecidableEq α] : List (α × ℕ) → α → ℕ
  | [], _ => 0
  | (k0, n) :: rest, k => if k0 = k then n else counterGet rest k

theorem counterGet_counterAdd {α : Type} [DecidableEq α] (c : List (α × ℕ)) (k j : α) :
    counterGet (counterAdd c k) j = counterGet c j + (if j = k then 1 else 0) := by
  induction c with
  | nil =>
    by_cases h : j = k
    · simp [counterAdd, counterGet, h]
    · simp [counterAdd, counterGet, h, Ne.symm h]
  | cons p rest ih =>
    obtain ⟨k0, n⟩ := p
    by_cases h0 : k0 = k
    · subst h0
      by_cases hj : k0 = j
      · subst hj
        simp [counterAdd, counterGet]
      · simp [counterAdd, counterGet, hj, Ne.symm hj]
    · by_cases hj : k0 = j
      · subst hj
        simp [counterAdd, counterGet, h0, Ne.symm h0]
      · simp [counterAdd, counterGet, h0, hj, ih]

theorem counterGet_counterOf_aux {α : Type} [DecidableEq α] (l : List α)
    (c : List (α × ℕ)) (k : α) :
    counterGet (l.foldl counterAdd c) k = counterGet c k + l.count k := by
  induction l generalizing c with
  | nil => simp
  | cons x xs ih =>
    rw [List.foldl_cons, ih, counterGet_counterAdd, List.count_cons]
    by_cases h : x = k
    · subst h
      simp
      omega
    · simp [h, Ne.symm h]

/-- The counter built from a list reports exactly the occurrence counts. -/
theorem counterGet_counterOf {α : Type} [DecidableEq α] (l : List α) (k : α) :
    counterGet (counterOf l) k = l.count k := by
  have := counterGet_counterOf_aux l [] k
  simpa [counterOf, counterGet] using this

/-- Sum of a function over the entries of a counter, the shape of the Python
loops `for key, count in counter.items(): score += f(key, count)`. -/
def counterSum {α : Type} (c : List (α × ℕ)) (g : α → ℕ → ℕ) : ℕ :=
  (c.map (fun p => g p.1 p.2)).sum

theorem counterSum_counterAdd {α : Type} [DecidableEq α] (c : List (α × ℕ))
    (k : α) (g : α → ℕ → ℕ) (hg : g k 0 = 0) :
    counterSum (counterAdd c k) g + g k (counterGet c k)
      = counterSum c g + g k (counterGet c k + 1) := by
  induction c with
  | nil => simp [counterAdd, counterSum, counterGet, hg]
  | cons p rest ih =>
    obtain ⟨k0, n⟩ := p
    by_cases h0 : k0 = k
    · subst h0
      simp only [counterAdd, if_pos rfl, counterSum, List.map_cons, List.sum_cons,
        counterGet, ite_true]
      ring
    · have hget : counterGet ((k0, n) :: rest) k = counterGet rest k := by
        simp [counterGet, h0]
      simp only [counterAdd, h0, if_false, counterSum, List.map_cons, List.sum_cons, hget]
      have hih := ih
      simp only [counterSum] at hih
      calc g k0 n + (List.map (fun p => g p.1 p.2) (counterAdd rest k)).sum
          + g k (counterGet rest k)
        = g k0 n + ((List.map (fun p => g p.1 p.2) (counterAdd rest k)).sum
          + g k (counterGet rest k)) := by ring
      _ = g k0 n + ((List.map (fun p => g p.1 p.2) rest).sum
          + g k (counterGet rest k + 1)) := by rw [hih]
      _ = g k0 n + (List.map (fun p => g p.1 p.2) rest).sum
          + g k (counterGet rest k + 1) := by ring

/-- Stable insertion step for sorting brute-force entries by descending
`attempt_count`: a new element is placed after every already-placed element
whose count is at least its own, matching the stable descending sort
`sorted(..., key=lambda x: x['attempt_count'], reverse=True)`. -/
def insertByCount {α : Type} (count : α → ℕ) (a : α) : List α → List α
  | [] => [a]
  | b :: l => if count a ≤ count b then b :: insertByCount count a l else a :: b :: l

/-- Stable sort by descending count, processing elements left to right. -/
def sortByCountDesc {α : Type} (count : α → ℕ) (l : List α) : List α :=
  l.foldl (fun acc a => insertByCount count a acc) []

theorem insertByCount_perm {α : Type} (count : α → ℕ) (a : α) (l : List α) :
    (insertByCount count a l).Perm (a :: l) := by
  induction l with
  | nil => simp [insertByCount]
  | cons b t ih =>
    by_cases h : count a ≤ count b
    · rw [show insertByCount count a (b :: t) = b :: insertByCount count a t from by
        simp [insertByCount, h]]
      exact (ih.cons b).trans (List.Perm.swap a b t)
    · rw [show insertByCount count a (b :: t) = a :: b :: t from by
        simp [insertByCount, h]]

theorem sortByCountDesc_perm_aux {α : Type} (count : α → ℕ) (l acc : List α) :
    (l.foldl (fun acc a => insertByCount count a acc) acc).Perm (l ++ acc) := by
  induction l generalizing acc with
  | nil => simp
  | cons a t ih =>
    rw [List.foldl_cons]
    refine (ih (insertByCount count a acc)).trans ?_
    refine (List.Perm.append_left t (insertByCount_perm count a acc)).trans ?_
    exact List.perm_middle

theorem sortByCountDesc_perm {α : Type} (count : α → ℕ) (l : List α) :
    (sortByCountDesc count l).Perm l := by
  have := sortByCountDesc_perm_aux count l []
  simpa [sortByCountDesc] using this

theorem insertByCount_sorted {α : Type} (count : α → ℕ) (a : α) {l : List α}
    (hl : l.Pairwise (fun x y => count y ≤ count x)) :
    (insertByCount count a l).Pairwise (fun x y => count y ≤ count x) := by
  induction l with
  | nil => simp [insertByCount]
  | cons b t ih =>
    have hbt := (List.pairwise_cons.mp hl).1
    have ht := (List.pairwise_cons.mp hl).2
    by_cases h : count a ≤ count b
    · rw [show insertByCount count a (b :: t) = b :: insertByCount count a t from by
        simp [insertByCount, h]]
      refine List.pairwise_cons.mpr ⟨?_, ih ht⟩
      intro y hy
      rcases List.mem_cons.mp ((insertByCount_perm count a t).mem_iff.mp hy) with h1 | h1
      · exact h1 ▸ h
      · exact hbt y h1
    · rw [show insertByCount count a (b :: t) = a :: b :: t from by
        simp [insertByCount, h]]
      refine List.pairwise_cons.mpr ⟨?_, hl⟩
      intro y hy
      rcases List.mem_cons.mp hy with h1 | h1
      · exact h1 ▸ le_of_not_le h
      · exact le_trans (hbt y h1) (le_of_not_le h)

theorem sortByCountDesc_sorted_aux {α : Type} (count : α → ℕ) (l : List α) :
    ∀ acc : List α, acc.Pairwise (fun x y => count y ≤ count x) →
      (l.foldl (fun acc a => insertByCount count a acc) acc).Pairwise
        (fun x y => count y ≤ count x) := by
  induction l with
  | nil => intro acc hacc; simpa using hacc
  | cons a t ih =>
    intro acc hacc
    rw [List.foldl_cons]
    exact ih _ (insertByCount_sorted count a hacc)

/-- Sorting by descending count produces a list that is pairwise
non-increasing in the count. -/
theorem sortByCountDesc_sorted {α : Type} (count : α → ℕ) (l : List α) :
    (sortByCountDesc count l).Pairwise (fun x y => count y ≤ count x) :=
  sortByCountDesc_sorted_aux count l [] (by simp)

/-- Event types that take part in brute-force grouping
(`ThreatAnalyzer._detect_brute_force`, core/analyzer.py lines 103-106). -/
def bruteForceEventTypes : List String :=
  ["ssh_failed_login", "windows_failed_login", "failed_root_login",
   "multiple_authentication_failures"]

/-- Test from the grouping loop of `_detect_brute_force`: the event has a
truthy `source_ip` and one of the failed-authentication event types. -/
def qualifiesBruteForce (e : SecurityEvent) : Bool :=
  (e.source_ip != "") && decide (e.event_type ∈ bruteForceEventTypes)

/-- Events collected in `ip_events[ip]` for one source IP. -/
def ipEventsFor (events : List SecurityEvent) (ip : String) : List SecurityEvent :=
  events.filter (fun e => qualifiesBruteForce e && e.source_ip == ip)

/-- Keys of the `ip_events` dict, in order of first insertion. -/
def bruteForceIps (events : List SecurityEvent) : List String :=
  firstDedup ((events.filter qualifiesBruteForce).map (fun e => e.source_ip))

/-- One entry of the `brute_force_attacks` list built by `_detect_brute_force`
(core/analyzer.py lines 122-131). -/
structure BruteForceAttack where
  source_ip : String
  attempt_count : ℕ
  time_span_seconds : ℤ
  usernames_targeted : List String
  first_attempt : ℤ
  last_attempt : ℤ
  severity : Sev
  attack_rate : ℚ
deriving DecidableEq, Repr

/-- Body of the per-IP loop of `_detect_brute_force`: at least 5 grouped
events whose timestamps span at most 600 seconds produce an entry, severity
`critical` above 20 attempts (the extra `> 50` check is kept as in the
source), else `high`.  `usernames_targeted` is `list(set(...))`, whose order
CPython leaves unspecified; first-occurrence order is used here, and no
property below depends on it. -/
def bruteForceEntryOf (l : List SecurityEvent) (ip : String) :
    Option BruteForceAttack :=
  if 5 ≤ l.length then
    let ts := l.map (fun e => e.timestamp)
    let span := listMax ts - listMin ts
    if span ≤ 600 then
      let sev0 := if 20 < l.length then Sev.critical else Sev.high
      let sev := if 50 < l.length then Sev.critical else sev0
      some { source_ip := ip
             attempt_count := l.length
             time_span_seconds := span
             usernames_targeted :=
               firstDedup ((l.filter (fun e => e.username != "")).map (fun e => e.username))
             first_attempt := listMin ts
             last_attempt := listMax ts
             severity := sev
             attack_rate := if 0 < span then (l.length : ℚ) / ((span : ℚ) / 60) else 0 }
    else none
  else none

/-- Entry computed for one key of the `ip_events` dict. -/
def bruteForceEntryFor (events : List SecurityEvent) (ip : String) :
    Option BruteForceAttack :=
  bruteForceEntryOf (ipEventsFor events ip) ip

/-- Embedding of `ThreatAnalyzer._detect_brute_force` (core/analyzer.py
lines 96-133): group qualifying events by source IP, keep groups of at least
5 events spanning at most 10 minutes, sort by descending attempt count. -/
def detectBruteForce (events : List SecurityEvent) : List BruteForceAttack :=
  sortByCountDesc (fun a => a.attempt_count)
    ((bruteForceIps events).filterMap (bruteForceEntryFor events))

/-- Severity weights of `_calculate_threat_score` (core/analyzer.py
lines 176-181). -/
def severityScoreWeight : Sev → ℕ
  | Sev.critical => 25
  | Sev.high => 15
  | Sev.medium => 5
  | Sev.low => 1

/-- Base score from the event count in `_calculate_threat_score`
(core/analyzer.py lines 166-173). -/
def volumeBonus (totalEvents : ℕ) : ℕ :=
  if 100 < totalEvents then 30
  else if 50 < totalEvents then 20
  else if 10 < totalEvents then 10
  else 0

/-- Embedding of `ThreatAnalyzer._calculate_threat_score` (core/analyzer.py
lines 162-191), continued: severity loop and brute-force bonus. -/
def calculateThreatScore (totalEvents : ℕ) (sevB : List (Sev × ℕ))
    (bruteForceCount : ℕ) : ℕ :=
  let base := volumeBonus totalEvents
  let score := sevB.foldl (fun acc p => acc + min (severityScoreWeight p.1 * p.2) 40) base
  let score2 := if 0 < bruteForceCount then score + min (bruteForceCount * 10) 30 else score
  min score2 100

/-- Hour-of-day of a timestamp in seconds, the embedding of
`event.timestamp.hour`. -/
def hourOf (t : ℤ) : ℕ := ((t / 3600) % 24).toNat

/-- Calendar-day index of a timestamp in seconds, the embedding of the
`'%Y-%m-%d'` date string: two timestamps format to the same string exactly
when they lie in the same 86400-second day. -/
def dayOf (t : ℤ) : ℤ := t / 86400

/-- Python `max(items, key=...)` and `Counter.most_common(1)`: the first
entry with maximal count (ties resolved to the earliest-inserted key). -/
def counterArgmax {α : Type} (c : List (α × ℕ)) : Option (α × ℕ) :=
  c.foldl
    (fun best p =>
      match best with
      | none => some p
      | some q => if q.2 < p.2 then some p else some q)
    none

/-- The dict built by `ThreatAnalyzer._analyze_timeline` (core/analyzer.py
lines 135-160) for a non-empty event list. -/
structure Timeline where
  hourly_distribution : List (ℕ × ℕ)
  daily_distribution : List (ℤ × ℕ)
  peak_hour : ℕ × ℕ
  peak_day : ℤ × ℕ
  total_days_with_events : ℕ
deriving DecidableEq, Repr

/-- Embedding of `ThreatAnalyzer._analyze_timeline`; the empty dict returned
for no events becomes `none`.  The `(0, 0)` defaults mirror the guarded
`if hourly_events else` expressions, which cannot trigger for non-empty
input. -/
def analyzeTimeline (events : List SecurityEvent) : Option Timeline :=
  if events = [] then none
  else
    let hourly := counterOf (events.map (fun e => hourOf e.timestamp))
    let daily := counterOf (events.map (fun e => dayOf e.timestamp))
    some { hourly_distribution := hourly
           daily_distribution := daily
           peak_hour := (counterArgmax hourly).getD (0, 0)
           peak_day := (counterArgmax daily).getD (0, 0)
           total_days_with_events := daily.length }

/-- Embedding of `ThreatAnalyzer._generate_recommendations` (core/analyzer.py
lines 193-242).  The source wraps the targeted username in ASCII single
quotes; they are transliterated to typographic quotes here. -/
def generateRecommendations (totalEvents : ℕ) (sevB : List (Sev × ℕ))
    (topIps topUsers : List (String × ℕ)) (brute : List BruteForceAttack)
    (timeline : Option Timeline) (threatScore : ℕ) : List String :=
  let recs : List String := []
  let recs :=
    if 100 < totalEvents then
      recs ++ ["⚠️ High volume of security events detected. Consider implementing rate limiting or account lockout policies"]
    else recs
  let recs :=
    if brute ≠ [] then
      (recs ++
        ["🚨 Brute force attacks detected. Implement fail2ban or similar IP blocking mechanisms",
         "🔒 Consider changing default SSH port and disabling root login"]) ++
        (brute.take 3).map
          (fun atk => s!"🛡️ Block IP {atk.source_ip} immediately ({atk.attempt_count} failed attempts)")
    else recs
  let criticalCount := counterGet sevB Sev.critical
  let recs :=
    if 0 < criticalCount then
      recs ++ [s!"🔥 {criticalCount} critical security events require immediate investigation"]
    else recs
  let recs :=
    match counterArgmax topIps with
    | some p =>
      if 10 < p.2 then
        recs ++ [s!"🎯 IP {p.1} is a repeat offender ({p.2} events) - consider permanent blocking"]
      else recs
    | none => recs
  let recs :=
    match counterArgmax topUsers with
    | some p =>
      if 20 < p.2 then
        recs ++ [s!"👤 Username ’{p.1}’ is heavily targeted - ensure strong password policy"]
      else recs
    | none => recs
  let recs :=
    if 70 < threatScore then
      recs ++ ["🚨 CRITICAL: Very high threat level detected. Immediate security review required"]
    else if 40 < threatScore then
      recs ++ ["⚠️ HIGH: Elevated threat level. Enhanced monitoring recommended"]
    else if 20 < threatScore then
      recs ++ ["📊 MEDIUM: Moderate threat level. Regular monitoring sufficient"]
    else recs
  let recs :=
    match timeline with
    | some tl =>
      if 50 < tl.peak_hour.2 then
        recs ++ [s!"⏰ Peak attack time: {tl.peak_hour.1}:00. Consider enhanced monitoring during this hour"]
      else recs
    | none => recs
  recs

/-- Result dict of `ThreatAnalyzer.analyze_events`.  The fields
`attack_patterns`, `geographic_analysis` and `ai_analysis`, which the
deterministic flow never changes from their initial empty values, are
omitted. -/
structure Analysis where
  total_events : ℕ
  severity_breakdown : List (Sev × ℕ)
  top_source_ips : List (String × ℕ)
  top_usernames : List (String × ℕ)
  brute_force_attempts : List BruteForceAttack
  timeline_analysis : Option Timeline
  threat_score : ℕ
  recommendations : List String
deriving DecidableEq, Repr

/-- Embedding of `ThreatAnalyzer.analyze_events` (core/analyzer.py
lines 38-94) with AI disabled: basic statistics, brute-force detection,
timeline analysis, threat score, recommendations.  The single
basic-statistics loop builds the three counters exactly as the three
independent passes here do. -/
def analyzeEvents (events : List SecurityEvent) : Analysis :=
  let severity_breakdown := counterOf (events.map (fun e => e.severity))
  let top_source_ips :=
    counterOf ((events.filter (fun e => e.source_ip != "")).map (fun e => e.source_ip))
  let top_usernames :=
    counterOf ((events.filter (fun e => e.username != "")).map (fun e => e.username))
  let brute := detectBruteForce events
  let timeline := analyzeTimeline events
  let score := calculateThreatScore events.length severity_breakdown brute.length
  { total_events := events.length
    severity_breakdown := severity_breakdown
    top_source_ips := top_source_ips
    top_usernames := top_usernames
    brute_force_attempts := brute
    timeline_analysis := timeline
    threat_score := score
    recommendations :=
      generateRecommendations events.length severity_breakdown top_source_ips
        top_usernames brute timeline score }

/-- The fields of the `quick_analysis` result that `analyze_events` reads on
its AI-enhancement path. -/
structure AIQuickAnalysis where
  threat_level : String
  alerts : List String

/-- The AI-enhancement tail of `ThreatAnalyzer.analyze_events` (core/analyzer.py
lines 74-94): run only when AI is enabled, an ML manager exists and the event
list is non-empty (`if self.enable_ai and self.ml_manager and events`).  The
`quick_analysis` call is a parameter; extending with an empty alert list is
identical to the guarded `extend`. -/
def analyzeEventsAI (enableAI : Bool)
    (quickAnalysis : List SecurityEvent → AIQuickAnalysis)
    (events : List SecurityEvent) : Analysis :=
  let analysis := analyzeEvents events
  if enableAI ∧ events ≠ [] then
    let ai := quickAnalysis events
    let score :=
      if ai.threat_level = "critical" then min (analysis.threat_score + 20) 100
      else if ai.threat_level = "high" then min (analysis.threat_score + 10) 100
      else analysis.threat_score
    { analysis with
      threat_score := score
      recommendations := analysis.recommendations ++ ai.alerts }
  else analysis

/-- Brute-force bonus term of `_calculate_threat_score` in closed form. -/
def bruteBonus (c : ℕ) : ℕ := if 0 < c then min (c * 10) 30 else 0

theorem foldl_add_sum {α : Type} (l : List α) (f : α → ℕ) (b : ℕ) :
    l.foldl (fun acc x => acc + f x) b = b + (l.map f).sum := by
  induction l generalizing b with
  | nil => simp
  | cons x xs ih => simp [ih, add_assoc]

/-- The threat-score computation in closed form: volume bonus plus the
severity fold plus the brute-force bonus, clamped to 100. -/
theorem calculateThreatScore_eq (n : ℕ) (sevB : List (Sev × ℕ)) (bc : ℕ) :
    calculateThreatScore n sevB bc =
      min (volumeBonus n
        + counterSum sevB (fun s c => min (severityScoreWeight s * c) 40)
        + bruteBonus bc) 100 := by
  rw [calculateThreatScore]
  rw [show (fun (acc : ℕ) (p : Sev × ℕ) => acc + min (severityScoreWeight p.1 * p.2) 40)
      = fun acc p => acc + (fun q : Sev × ℕ => min (severityScoreWeight q.1 * q.2) 40) p
    from rfl]
  rw [foldl_add_sum]
  by_cases h : 0 < bc
  · simp [h, bruteBonus, counterSum, add_assoc]
  · simp [h, bruteBonus, counterSum]

/-- Severity order used when summing the per-class capped contributions. -/
def allSevs : List Sev := [Sev.critical, Sev.high, Sev.medium, Sev.low]

theorem counterSum_counterOf_sev (l : List Sev) (g : Sev → ℕ → ℕ)
    (hg : ∀ s, g s 0 = 0) :
    counterSum (counterOf l) g = (allSevs.map (fun s => g s (l.count s))).sum := by
  induction l using List.reverseRecOn with
  | nil => simp [counterOf, counterSum, allSevs, hg]
  | append_singleton l x ih =>
    have hado : counterOf (l ++ [x]) = counterAdd (counterOf l) x := by
      simp [counterOf, List.foldl_append]
    have key := counterSum_counterAdd (counterOf l) x g (hg x)
    rw [counterGet_counterOf] at key
    have hCne : ∀ (s x : Sev), s ≠ x → ∀ l0 : List Sev,
        (l0 ++ [x]).count s = l0.count s := by
      intro s x h l0
      rw [List.count_append]
      simp [h, Ne.symm h]
    have hCeq : ∀ (x : Sev) (l0 : List Sev), (l0 ++ [x]).count x = l0.count x + 1 := by
      intro x l0
      rw [List.count_append]
      simp
    rw [hado]
    rcases x with _ | _ | _ | _
    · simp only [allSevs, List.map_cons, List.map_nil, List.sum_cons, List.sum_nil] at ih ⊢
      rw [hCne Sev.critical Sev.low (by decide) l, hCne Sev.high Sev.low (by decide) l,
        hCne Sev.medium Sev.low (by decide) l, hCeq Sev.low l]
      omega
    · simp only [allSevs, List.map_cons, List.map_nil, List.sum_cons, List.sum_nil] at ih ⊢
      rw [hCne Sev.critical Sev.medium (by decide) l, hCne Sev.high Sev.medium (by decide) l,
        hCeq Sev.medium l, hCne Sev.low Sev.medium (by decide) l]
      omega
    · simp only [allSevs, List.map_cons, List.map_nil, List.sum_cons, List.sum_nil] at ih ⊢
      rw [hCne Sev.critical Sev.high (by decide) l, hCeq Sev.high l,
        hCne Sev.medium Sev.high (by decide) l, hCne Sev.low Sev.high (by decide) l]
      omega
    · simp only [allSevs, List.map_cons, List.map_nil, List.sum_cons, List.sum_nil] at ih ⊢
      rw [hCeq Sev.critical l, hCne Sev.high Sev.critical (by decide) l,
        hCne Sev.medium Sev.critical (by decide) l, hCne Sev.low Sev.critical (by decide) l]
      omega

theorem volumeBonus_mono {n m : ℕ} (h : n ≤ m) : volumeBonus n ≤ volumeBonus m := by
  rw [volumeBonus, volumeBonus]
  split_ifs <;> omega

theorem counterSum_counterAdd_le {α : Type} [DecidableEq α] (c : List (α × ℕ))
    (k : α) (g : α → ℕ → ℕ) (hg : g k 0 = 0)
    (hmono : g k (counterGet c k) ≤ g k (counterGet c k + 1)) :
    counterSum c g ≤ counterSum (counterAdd c k) g := by
  have := counterSum_counterAdd c k g hg
  omega

theorem qualifiesBruteForce_false_of_no_ip {e : SecurityEvent}
    (h : e.source_ip = "") : qualifiesBruteForce e = false := by
  simp [qualifiesBruteForce, h]

theorem detectBruteForce_append_nonqual {events : List SecurityEvent}
    {e : SecurityEvent} (h : qualifiesBruteForce e = false) :
    detectBruteForce (events ++ [e]) = detectBruteForce events := by
  have hfil : (events ++ [e]).filter qualifiesBruteForce
      = events.filter qualifiesBruteForce := by
    simp [List.filter_append, h]
  have hips : bruteForceIps (events ++ [e]) = bruteForceIps events := by
    simp [bruteForceIps, hfil]
  have hipev : ∀ ip, ipEventsFor (events ++ [e]) ip = ipEventsFor events ip := by
    intro ip
    simp [ipEventsFor, List.filter_append, h]
  have hentry : bruteForceEntryFor (events ++ [e]) = bruteForceEntryFor events := by
    funext ip
    rw [bruteForceEntryFor, bruteForceEntryFor, hipev]
  rw [detectBruteForce, detectBruteForce, hips, hentry]

/-- Projecting `analyze_events` onto its threat score. -/
theorem analyzeEvents_threat_score (events : List SecurityEvent) :
    (analyzeEvents events).threat_score
      = calculateThreatScore events.length
          (counterOf (events.map (fun e => e.severity)))
          (detectBruteForce events).length := rfl

/-- Time span of an event list: last sorted timestamp minus first sorted
timestamp, as computed by `_detect_brute_force`. -/
def spanSeconds (events : List SecurityEvent) : ℤ :=
  listMax (events.map (fun e => e.timestamp)) - listMin (events.map (fun e => e.timestamp))

theorem qualifiesBruteForce_of {e : SecurityEvent} {ip : String}
    (he : e.source_ip = ip) (hip : ip ≠ "")
    (hty : e.event_type ∈ bruteForceEventTypes) :
    qualifiesBruteForce e = true := by
  simp [qualifiesBruteForce, he, hip, hty]

theorem ipEventsFor_eq_self {events : List SecurityEvent} {ip : String}
    (hip : ∀ e ∈ events, e.source_ip = ip)
    (hq : ∀ e ∈ events, qualifiesBruteForce e = true) :
    ipEventsFor events ip = events := by
  rw [ipEventsFor]
  apply List.filter_eq_self.mpr
  intro e he
  simp [hq e he, hip e he]

theorem bruteForceIps_const {events : List SecurityEvent} {ip : String}
    (hne : events ≠ [])
    (hip : ∀ e ∈ events, e.source_ip = ip)
    (hq : ∀ e ∈ events, qualifiesBruteForce e = true) :
    bruteForceIps events = [ip] := by
  rw [bruteForceIps, List.filter_eq_self.mpr (fun e he => hq e he)]
  apply firstDedup_const
  · simp [hne]
  · intro x hx
    rcases List.mem_map.mp hx with ⟨e, he, rfl⟩
    exact hip e he

theorem sortByCountDesc_singleton {α : Type} (count : α → ℕ) (a : α) :
    sortByCountDesc count [a] = [a] := rfl

/-- When every event comes from the same qualifying source IP, brute-force
detection reduces to the single per-IP check. -/
theorem detectBruteForce_uniform {events : List SecurityEvent} {ip : String}
    (hne : events ≠ [])
    (hip : ∀ e ∈ events, e.source_ip = ip)
    (hq : ∀ e ∈ events, qualifiesBruteForce e = true) :
    detectBruteForce events =
      match bruteForceEntryOf events ip with
      | some a => [a]
      | none => [] := by
  rw [detectBruteForce, bruteForceIps_const hne hip hq]
  rw [show List.filterMap (bruteForceEntryFor events) [ip]
      = match bruteForceEntryFor events ip with
        | some a => [a]
        | none => [] from by
    cases h : bruteForceEntryFor events ip <;> simp [List.filterMap_cons, h]]
  rw [bruteForceEntryFor, ipEventsFor_eq_self hip hq]
  cases h : bruteForceEntryOf events ip
  · rfl
  · exact sortByCountDesc_singleton _ _

/-- Helper for concrete events in examples: hostname, details and log source
are irrelevant to every analysed property. -/
def mkEvent (t : ℤ) (ty ip user : String) (s : Sev) : SecurityEvent :=
  { timestamp := t
    event_type := ty
    source_ip := ip
    username := user
    hostname := "host"
    details := "detail"
    severity := s
    log_source := "test" }

/-- Five failed SSH logins from one IP within four minutes. -/
def c1BaseEvents : List SecurityEvent :=
  [mkEvent 0 "ssh_failed_login" "198.51.100.7" "root" Sev.medium,
   mkEvent 60 "ssh_failed_login" "198.51.100.7" "root" Sev.medium,
   mkEvent 120 "ssh_failed_login" "198.51.100.7" "root" Sev.medium,
   mkEvent 180 "ssh_failed_login" "198.51.100.7" "root" Sev.medium,
   mkEvent 240 "ssh_failed_login" "198.51.100.7" "root" Sev.medium]

/-- A sixth failed login from the same IP one hour later. -/
def c1AddedEvent : SecurityEvent :=
  mkEvent 3600 "ssh_failed_login" "198.51.100.7" "root" Sev.medium

/-- C1 (counterexample): adding one event to a fixed event list strictly
decreases the threat score, refuting monotonicity in event count.  The five
base events form a brute-force group (span 240 s, score 25 + 10 = 35); the
added sixth event stretches the group span to 3600 s > 600 s, so the group is
no longer flagged (score 30 + 0 = 30). -/
theorem claim_C1_counterexample :
    (analyzeEvents (c1BaseEvents ++ [c1AddedEvent])).threat_score
      < (analyzeEvents c1BaseEvents).threat_score := by decide

/-- C1 (amended): the threat score returned by `analyze_events` with AI
disabled always lies in [0, 100] (it is a natural number, so 0 is a lower
bound by construction); adding an event never decreases the volume and
severity components, and adding an event that cannot affect brute-force
grouping — one with an empty `source_ip` — never decreases the score.
Unrestricted monotonicity in event count fails (see the counterexample). -/
theorem claim_C1 :
    (∀ events : List SecurityEvent, (analyzeEvents events).threat_score ≤ 100) ∧
    (∀ (events : List SecurityEvent) (e : SecurityEvent), e.source_ip = "" →
      (analyzeEvents events).threat_score
        ≤ (analyzeEvents (events ++ [e])).threat_score) := by
  constructor
  · intro events
    rw [analyzeEvents_threat_score, calculateThreatScore_eq]
    exact min_le_right _ _
  · intro events e he
    have hq := qualifiesBruteForce_false_of_no_ip he
    have hbf := @detectBruteForce_append_nonqual events e hq
    rw [analyzeEvents_threat_score, analyzeEvents_threat_score,
      calculateThreatScore_eq, calculateThreatScore_eq, hbf]
    apply min_le_min _ le_rfl
    have h1 : volumeBonus events.length ≤ volumeBonus (events ++ [e]).length :=
      volumeBonus_mono (by simp)
    have hco : counterOf ((events ++ [e]).map (fun x => x.severity))
        = counterAdd (counterOf (events.map (fun x => x.severity))) e.severity := by
      simp [counterOf, List.map_append, List.foldl_append]
    have h2 : counterSum (counterOf (events.map (fun x => x.severity)))
          (fun s c => min (severityScoreWeight s * c) 40)
        ≤ counterSum (counterOf ((events ++ [e]).map (fun x => x.severity)))
          (fun s c => min (severityScoreWeight s * c) 40) := by
      rw [hco]
      apply counterSum_counterAdd_le
      · simp
      · exact min_le_min (Nat.mul_le_mul_left _ (Nat.le_succ _)) le_rfl
    omega

/-- C1 (witness): the amended statement at the concrete five-event list and a
concrete source-IP-less event. -/
theorem claim_C1_witness :
    (analyzeEvents c1BaseEvents).threat_score ≤ 100 ∧
    (analyzeEvents c1BaseEvents).threat_score
      ≤ (analyzeEvents (c1BaseEvents ++ [mkEvent 300 "other" "" "" Sev.low])).threat_score :=
  ⟨claim_C1.1 c1BaseEvents, claim_C1.2 c1BaseEvents (mkEvent 300 "other" "" "" Sev.low) rfl⟩

/-- Severity occurrence count of an event list. -/
def sevCount (events : List SecurityEvent) (s : Sev) : ℕ :=
  (events.map (fun e => e.severity)).count s

/-- The threat-score formula exactly as claim C3 words it: volume bonus, plus
the severity-weighted sum capped at 40 as a whole, plus the brute-force bonus,
clamped to 100.  Stated for comparison with the code's score. -/
def c3ClaimedScore (events : List SecurityEvent) : ℕ :=
  min (volumeBonus events.length
    + min (25 * sevCount events Sev.critical + 15 * sevCount events Sev.high
        + 5 * sevCount events Sev.medium + 1 * sevCount events Sev.low) 40
    + bruteBonus (detectBruteForce events).length) 100

/-- Two critical and three high events (no source IPs, so no brute force, and
five events give no volume bonus). -/
def c3Events : List SecurityEvent :=
  [mkEvent 0 "alert" "" "" Sev.critical,
   mkEvent 10 "alert" "" "" Sev.critical,
   mkEvent 20 "alert" "" "" Sev.high,
   mkEvent 30 "alert" "" "" Sev.high,
   mkEvent 40 "alert" "" "" Sev.high]

/-- C3 (counterexample): on two critical plus three high events the code
scores min(50,40) + min(45,40) = 80, while the claimed formula with a single
combined cap yields min(50+45,40) = 40; in particular the combined severity
contribution exceeds 40. -/
theorem claim_C3_counterexample :
    (analyzeEvents c3Events).threat_score ≠ c3ClaimedScore c3Events ∧
    (analyzeEvents c3Events).threat_score = 80 ∧
    c3ClaimedScore c3Events = 40 := by decide

/-- C3 (amended): the threat score equals the volume bonus (+30/+20/+10 for
more than 100/50/10 events), plus the severity-weighted contributions
(critical×25, high×15, medium×5, low×1) **capped at 40 separately for each
severity class**, plus 10 per brute-force attack capped at 30, clamped to
100.  The combined severity contribution can reach up to 4×40. -/
theorem claim_C3 :
    ∀ events : List SecurityEvent,
      (analyzeEvents events).threat_score
        = min (volumeBonus events.length
            + (allSevs.map (fun s => min (severityScoreWeight s * sevCount events s) 40)).sum
            + bruteBonus (detectBruteForce events).length) 100 := by
  intro events
  rw [analyzeEvents_threat_score, calculateThreatScore_eq,
    counterSum_counterOf_sev _ _ (fun s => by simp)]
  rfl

/-- C9: analysing the empty event list yields threat score 0, no brute-force
entries and no recommendations, and the AI-enhancement branch of
`analyze_events` is skipped (its guard requires a non-empty event list), so
the AI-enabled result coincides with the deterministic one. -/
theorem claim_C9 :
    (analyzeEvents []).threat_score = 0 ∧
    (analyzeEvents []).brute_force_attempts = [] ∧
    (analyzeEvents []).recommendations = [] ∧
    ∀ (enableAI : Bool) (quick : List SecurityEvent → AIQuickAnalysis),
      analyzeEventsAI enableAI quick [] = analyzeEvents [] := by
  refine ⟨rfl, rfl, rfl, ?_⟩
  intro enableAI quick
  simp [analyzeEventsAI]

theorem bruteForceEntryOf_ip {l : List SecurityEvent} {ip : String}
    {a : BruteForceAttack} (h : bruteForceEntryOf l ip = some a) :
    a.source_ip = ip := by
  simp only [bruteForceEntryOf] at h
  by_cases h5 : 5 ≤ l.length
  · rw [if_pos h5] at h
    by_cases hs : listMax (l.map fun e => e.timestamp)
        - listMin (l.map fun e => e.timestamp) ≤ 600
    · rw [if_pos hs] at h
      injection h with h2
      rw [← h2]
    · rw [if_neg hs] at h
      cases h
  · rw [if_neg h5] at h
    cases h

theorem map_ip_filterMap_sublist (events : List SecurityEvent) :
    ∀ ips : List String,
      ((ips.filterMap (bruteForceEntryFor events)).map (fun a => a.source_ip)).Sublist ips := by
  intro ips
  induction ips with
  | nil => simp
  | cons ip rest ih =>
    cases h : bruteForceEntryFor events ip with
    | none =>
      rw [List.filterMap_cons, h]
      exact ih.cons ip
    | some a =>
      have hip : a.source_ip = ip := bruteForceEntryOf_ip h
      rw [List.filterMap_cons, h, List.map_cons, hip]
      exact ih.cons₂ ip

/-- C10: for every event list, `_detect_brute_force` returns entries sorted
by non-increasing attempt count, and at most one entry per source IP (the
source-IP projection of the result has no duplicates). -/
theorem claim_C10 :
    ∀ events : List SecurityEvent,
      (detectBruteForce events).Pairwise
        (fun x y => y.attempt_count ≤ x.attempt_count) ∧
      ((detectBruteForce events).map (fun a => a.source_ip)).Nodup := by
  intro events
  constructor
  · exact sortByCountDesc_sorted _ _
  · have h1 : (((bruteForceIps events).filterMap (bruteForceEntryFor events)).map
        (fun a => a.source_ip)).Nodup :=
      (map_ip_filterMap_sublist events (bruteForceIps events)).nodup
        (firstDedup_nodup _)
    rw [detectBruteForce]
    have hperm :=
      ((sortByCountDesc_perm (fun a : BruteForceAttack => a.attempt_count)
        ((bruteForceIps events).filterMap (bruteForceEntryFor events))).map
          (fun a => a.source_ip)).symm
    exact hperm.nodup h1

/-- C2: (1) ten failed-login events from one source IP spanning at most 10
minutes give exactly one brute-force entry with `attempt_count` 10 and
severity high or critical; (2) the same ten events spread over 20 minutes
give no entry; (3) sixty `ssh_failed_login` events from one IP within five
minutes give one entry of critical severity. -/
theorem claim_C2 :
    (∀ (events : List SecurityEvent) (ip : String),
      events.length = 10 → ip ≠ "" →
      (∀ e ∈ events, e.source_ip = ip) →
      (∀ e ∈ events, e.event_type ∈ bruteForceEventTypes) →
      spanSeconds events ≤ 600 →
      ∃ bf, detectBruteForce events = [bf] ∧ bf.attempt_count = 10 ∧
        (bf.severity = Sev.high ∨ bf.severity = Sev.critical)) ∧
    (∀ (events : List SecurityEvent) (ip : String),
      events.length = 10 → ip ≠ "" →
      (∀ e ∈ events, e.source_ip = ip) →
      (∀ e ∈ events, e.event_type ∈ bruteForceEventTypes) →
      spanSeconds events = 1200 →
      detectBruteForce events = []) ∧
    (∀ (events : List SecurityEvent) (ip : String),
      events.length = 60 → ip ≠ "" →
      (∀ e ∈ events, e.source_ip = ip) →
      (∀ e ∈ events, e.event_type = "ssh_failed_login") →
      spanSeconds events ≤ 300 →
      ∃ bf, detectBruteForce events = [bf] ∧ bf.attempt_count = 60 ∧
        bf.severity = Sev.critical) := by
  refine ⟨?_, ?_, ?_⟩
  · intro events ip hlen hipne hmem hty hspan
    have hne : events ≠ [] := by
      intro h
      rw [h] at hlen
      exact absurd hlen (by decide)
    have hq : ∀ e ∈ events, qualifiesBruteForce e = true :=
      fun e he => qualifiesBruteForce_of (hmem e he) hipne (hty e he)
    rw [detectBruteForce_uniform hne hmem hq]
    simp only [bruteForceEntryOf]
    rw [if_pos (show 5 ≤ events.length by omega)]
    rw [if_pos (show listMax (List.map (fun e => e.timestamp) events)
        - listMin (List.map (fun e => e.timestamp) events) ≤ 600 from by
      simpa [spanSeconds] using hspan)]
    refine ⟨_, rfl, hlen, ?_⟩
    left
    show (if 50 < events.length then Sev.critical
      else if 20 < events.length then Sev.critical else Sev.high) = Sev.high
    rw [if_neg (by omega), if_neg (by omega)]
  · intro events ip hlen hipne hmem hty hspan
    have hne : events ≠ [] := by
      intro h
      rw [h] at hlen
      exact absurd hlen (by decide)
    have hq : ∀ e ∈ events, qualifiesBruteForce e = true :=
      fun e he => qualifiesBruteForce_of (hmem e he) hipne (hty e he)
    rw [detectBruteForce_uniform hne hmem hq]
    simp only [bruteForceEntryOf]
    rw [if_pos (show 5 ≤ events.length by omega)]
    have hsp : listMax (List.map (fun e => e.timestamp) events)
        - listMin (List.map (fun e => e.timestamp) events) = 1200 := by
      simpa [spanSeconds] using hspan
    rw [if_neg (by rw [hsp]; decide)]
  · intro events ip hlen hipne hmem hty hspan
    have hne : events ≠ [] := by
      intro h
      rw [h] at hlen
      exact absurd hlen (by decide)
    have hq : ∀ e ∈ events, qualifiesBruteForce e = true := by
      intro e he
      refine qualifiesBruteForce_of (hmem e he) hipne ?_
      rw [hty e he]
      decide
    rw [detectBruteForce_uniform hne hmem hq]
    simp only [bruteForceEntryOf]
    rw [if_pos (show 5 ≤ events.length by omega)]
    rw [if_pos (show listMax (List.map (fun e => e.timestamp) events)
        - listMin (List.map (fun e => e.timestamp) events) ≤ 600 from by
      have := hspan
      simp [spanSeconds] at this
      omega)]
    refine ⟨_, rfl, hlen, ?_⟩
    show (if 50 < events.length then Sev.critical
      else if 20 < events.length then Sev.critical else Sev.high) = Sev.critical
    rw [if_pos (by omega)]

/-- Ten failed logins, one every minute, from one IP (span 540 s). -/
def c2FastEvents : List SecurityEvent :=
  (List.range 10).map
    (fun k => mkEvent (60 * (k : ℤ)) "ssh_failed_login" "203.0.113.5" "admin" Sev.medium)

/-- The same ten attempts spread over exactly 20 minutes (span 1200 s). -/
def c2SlowEvents : List SecurityEvent :=
  ((List.range 9).map
    (fun k => mkEvent (120 * (k : ℤ)) "ssh_failed_login" "203.0.113.5" "admin" Sev.medium))
  ++ [mkEvent 1200 "ssh_failed_login" "203.0.113.5" "admin" Sev.medium]

/-- Sixty failed SSH logins within five minutes from one IP (span 295 s). -/
def c2BigEvents : List SecurityEvent :=
  (List.range 60).map
    (fun k => mkEvent (5 * (k : ℤ)) "ssh_failed_login" "203.0.113.5" "admin" Sev.medium)

set_option maxRecDepth 100000 in
/-- C2 (witness): the three scenarios instantiated at concrete event
lists. -/
theorem claim_C2_witness :
    (∃ bf, detectBruteForce c2FastEvents = [bf] ∧ bf.attempt_count = 10 ∧
      (bf.severity = Sev.high ∨ bf.severity = Sev.critical)) ∧
    detectBruteForce c2SlowEvents = [] ∧
    (∃ bf, detectBruteForce c2BigEvents = [bf] ∧ bf.attempt_count = 60 ∧
      bf.severity = Sev.critical) :=
  ⟨claim_C2.1 c2FastEvents "203.0.113.5" (by decide) (by decide) (by decide)
      (by decide) (by decide),
   claim_C2.2.1 c2SlowEvents "203.0.113.5" (by decide) (by decide) (by decide)
      (by decide) (by decide),
   claim_C2.2.2 c2BigEvents "203.0.113.5" (by decide) (by decide) (by decide)
      (by decide) (by decide)⟩

/-- Severity weights of `_calculate_window_features`
(ai/predictive_engine.py line 122). -/
def severityWeight4 : Sev → ℕ
  | Sev.critical => 4
  | Sev.high => 3
  | Sev.medium => 2
  | Sev.low => 1

/-- Weekday of a timestamp in seconds (`datetime.weekday()`, Monday = 0);
day 0 of the epoch was a Thursday, weekday 3. -/
def weekdayOf (t : ℤ) : ℕ := (((t / 86400) + 3) % 7).toNat

/-- One row of the time-series feature frame built by
`PredictiveEngine._calculate_window_features` (ai/predictive_engine.py
lines 90-140). -/
structure WindowRow where
  timestamp : ℤ
  hour : ℕ
  day_of_week : ℕ
  is_weekend : Bool
  is_business_hours : Bool
  is_night : Bool
  total_events : ℕ
  unique_ips : ℕ
  critical_events : ℕ
  high_events : ℕ
  medium_events : ℕ
  low_events : ℕ
  severity_score : ℕ
  event_type_diversity : ℕ
  ip_diversity : ℕ
deriving DecidableEq, Repr

/-- Events falling into the half-open window `[c, c + 1h)`, the filter of
`prepare_time_series_features` (ai/predictive_engine.py lines 77-80). -/
def windowEvents (events : List SecurityEvent) (c : ℤ) : List SecurityEvent :=
  events.filter (fun e => decide (c ≤ e.timestamp) && decide (e.timestamp < c + 3600))

/-- Embedding of `_calculate_window_features`.  The source's explicit
all-zero branch for an empty window coincides with evaluating the non-empty
branch on an empty list (every count, diversity and sum is 0). -/
def calculateWindowFeatures (ws : List SecurityEvent) (windowStart : ℤ) : WindowRow :=
  { timestamp := windowStart
    hour := hourOf windowStart
    day_of_week := weekdayOf windowStart
    is_weekend := decide (5 ≤ weekdayOf windowStart)
    is_business_hours := decide (9 ≤ hourOf windowStart) && decide (hourOf windowStart ≤ 17)
    is_night := decide (hourOf windowStart < 6) || decide (22 < hourOf windowStart)
    total_events := ws.length
    unique_ips := (firstDedup (ws.map (fun e => e.source_ip))).length
    critical_events := (ws.filter (fun e => e.severity == Sev.critical)).length
    high_events := (ws.filter (fun e => e.severity == Sev.high)).length
    medium_events := (ws.filter (fun e => e.severity == Sev.medium)).length
    low_events := (ws.filter (fun e => e.severity == Sev.low)).length
    severity_score := (ws.map (fun e => severityWeight4 e.severity)).sum
    event_type_diversity := (firstDedup (ws.map (fun e => e.event_type))).length
    ip_diversity := (firstDedup (ws.map (fun e => e.source_ip))).length }

/-- Fuel-driven unfolding of the `while current_time <= end_time` loop of
`prepare_time_series_features`; the fuel bounds the iteration count and is
always sufficient at the call site (the loop advances by 3600 s each step). -/
def bucketStartsGo : ℕ → ℤ → ℤ → List ℤ
  | 0, _, _ => []
  | fuel + 1, c, endT =>
    if c ≤ endT then c :: bucketStartsGo fuel (c + 3600) endT else []

/-- Window start times generated by the while loop of
`prepare_time_series_features` (ai/predictive_engine.py lines 70-86). -/
def bucketStarts (startT endT : ℤ) : List ℤ :=
  bucketStartsGo ((endT - startT).toNat + 1) startT endT

theorem bucketStartsGo_of_gt {c endT : ℤ} (h : ¬c ≤ endT) :
    ∀ fuel, bucketStartsGo fuel c endT = [] := by
  intro fuel
  cases fuel with
  | zero => rfl
  | succ m => simp [bucketStartsGo, h]

theorem bucketStartsGo_spec :
    ∀ (n fuel : ℕ) (c endT : ℤ), c ≤ endT → ((endT - c) / 3600).toNat = n →
      n < fuel →
      bucketStartsGo fuel c endT
        = (List.range (n + 1)).map (fun k : ℕ => c + 3600 * (k : ℤ)) := by
  intro n
  induction n with
  | zero =>
    intro fuel c endT hce hdiv hfuel
    cases fuel with
    | zero => omega
    | succ m =>
      rw [bucketStartsGo, if_pos hce]
      have hlt : ¬(c + 3600 ≤ endT) := by omega
      rw [bucketStartsGo_of_gt hlt]
      rw [show List.range 1 = [0] from by decide]
      simp
  | succ n ih =>
    intro fuel c endT hce hdiv hfuel
    cases fuel with
    | zero => omega
    | succ m =>
      rw [bucketStartsGo, if_pos hce]
      have hce2 : c + 3600 ≤ endT := by omega
      have hdiv2 : ((endT - (c + 3600)) / 3600).toNat = n := by omega
      rw [ih m (c + 3600) endT hce2 hdiv2 (by omega)]
      rw [show List.range (n + 1 + 1) = 0 :: List.map Nat.succ (List.range (n + 1)) from
        List.range_succ_eq_map (n + 1)]
      rw [List.map_cons, List.map_map]
      have hfun : ((fun k : ℕ => c + 3600 * (k : ℤ)) ∘ Nat.succ)
          = fun k : ℕ => (c + 3600) + 3600 * (k : ℤ) := by
        funext k
        simp only [Function.comp]
        push_cast
        ring
      rw [hfun]
      norm_num

theorem bucketStarts_eq {s e : ℤ} (h : s ≤ e) :
    bucketStarts s e
      = (List.range (((e - s) / 3600).toNat + 1)).map (fun k : ℕ => s + 3600 * (k : ℤ)) := by
  rw [bucketStarts]
  exact bucketStartsGo_spec _ _ _ _ h rfl (by omega)

/-- Embedding of `PredictiveEngine.prepare_time_series_features`
(ai/predictive_engine.py lines 49-88) with the default 1-hour window: one
feature row per window start from the earliest to the latest timestamp.
Sorting the frame by timestamp first does not change any window's row, since
every row field is an order-insensitive aggregate. -/
def prepareTimeSeriesFeatures (events : List SecurityEvent) : List WindowRow :=
  if events = [] then []
  else
    (bucketStarts (listMin (events.map (fun e => e.timestamp)))
        (listMax (events.map (fun e => e.timestamp)))).map
      (fun c => calculateWindowFeatures (windowEvents events c) c)

theorem sum_map_add {α : Type} (l : List α) (f g : α → ℕ) :
    (l.map (fun x => f x + g x)).sum = (l.map f).sum + (l.map g).sum := by
  induction l with
  | nil => simp
  | cons x xs ih => simp [ih]; omega

theorem sum_map_ite_one {α : Type} (l : List α) (p : α → Bool) :
    (l.map (fun k => if p k = true then 1 else 0)).sum = (l.filter p).length := by
  induction l with
  | nil => simp
  | cons x xs ih =>
    by_cases h : p x = true
    · simp [h, ih, List.filter_cons] <;> omega
    · simp [h, ih, List.filter_cons] <;> omega

theorem filter_range_eq_singleton {m k0 : ℕ} (hk : k0 < m) (p : ℕ → Bool)
    (hp : ∀ k, k < m → (p k = true ↔ k = k0)) :
    (List.range m).filter p = [k0] := by
  induction m with
  | zero => omega
  | succ m ih =>
    rw [List.range_succ, List.filter_append]
    by_cases hm : k0 = m
    · have h1 : (List.range m).filter p = [] := by
        apply List.filter_eq_nil_iff.mpr
        intro k hkm
        have := List.mem_range.mp hkm
        intro hpk
        have := (hp k (by omega)).mp hpk
        omega
      have h2 : p m = true := (hp m (by omega)).mpr hm.symm
      simp [h1, h2, hm]
    · have h1 : (List.range m).filter p = [k0] :=
        ih (by omega) (fun k hkm => hp k (by omega))
      have h2 : ¬(p m = true) := by
        intro hpm
        have := (hp m (by omega)).mp hpm
        omega
      simp [h1, h2]

theorem window_index_unique {s e t : ℤ} (hst : s ≤ t) (hte : t ≤ e) :
    ∀ k : ℕ, k < ((e - s) / 3600).toNat + 1 →
      ((decide (s + 3600 * (k : ℤ) ≤ t) && decide (t < s + 3600 * (k : ℤ) + 3600)) = true
        ↔ k = ((t - s) / 3600).toNat) := by
  intro k hk
  rw [Bool.and_eq_true, decide_eq_true_eq, decide_eq_true_eq]
  omega

/-- The 1-hour windows starting at `s, s+1h, …` partition the events whose
timestamps all lie in `[s, e]`: each event is counted in exactly one
window. -/
theorem windows_partition (events : List SecurityEvent) (s e : ℤ)
    (hbound : ∀ ev ∈ events, s ≤ ev.timestamp ∧ ev.timestamp ≤ e) :
    ((List.range (((e - s) / 3600).toNat + 1)).map
      (fun k : ℕ => (windowEvents events (s + 3600 * (k : ℤ))).length)).sum
      = events.length := by
  induction events with
  | nil => simp [windowEvents]
  | cons ev rest ih =>
    have hb := hbound ev (List.mem_cons.mpr (Or.inl rfl))
    have hrest : ∀ x ∈ rest, s ≤ x.timestamp ∧ x.timestamp ≤ e :=
      fun x hx => hbound x (List.mem_cons.mpr (Or.inr hx))
    have hsplit : ∀ c : ℤ, (windowEvents (ev :: rest) c).length
        = (if (decide (c ≤ ev.timestamp) && decide (ev.timestamp < c + 3600)) = true
            then 1 else 0)
          + (windowEvents rest c).length := by
      intro c
      rw [windowEvents, windowEvents, List.filter_cons]
      by_cases h : (decide (c ≤ ev.timestamp) && decide (ev.timestamp < c + 3600)) = true
      · simp [h]
        omega
      · simp [h]
    rw [show (fun k : ℕ => (windowEvents (ev :: rest) (s + 3600 * (k : ℤ))).length)
        = fun k : ℕ =>
          (if (decide (s + 3600 * (k : ℤ) ≤ ev.timestamp)
              && decide (ev.timestamp < s + 3600 * (k : ℤ) + 3600)) = true then 1 else 0)
          + (windowEvents rest (s + 3600 * (k : ℤ))).length from funext (fun k => hsplit _)]
    rw [sum_map_add, ih hrest, sum_map_ite_one]
    have huniq := window_index_unique hb.1 hb.2
    rw [filter_range_eq_singleton (by omega)
      (fun k : ℕ => decide (s + 3600 * (k : ℤ) ≤ ev.timestamp)
        && decide (ev.timestamp < s + 3600 * (k : ℤ) + 3600)) huniq]
    simp
    omega

/-- Two events 90 minutes apart: the time span T is 1.5 hours. -/
def c4Events : List SecurityEvent :=
  [mkEvent 0 "alert" "" "" Sev.low, mkEvent 5400 "alert" "" "" Sev.low]

/-- C4 (counterexample): over a span of T = 1.5 hours the while loop emits
window starts 0 and 3600 only — 2 buckets — while the claim's ceil(T)+1
formula demands 3. -/
theorem claim_C4_counterexample :
    spanSeconds c4Events = 5400 ∧
    (prepareTimeSeriesFeatures c4Events).length = 2 ∧
    ¬((prepareTimeSeriesFeatures c4Events).length
      = ((⌈(5400 : ℚ) / 3600⌉ : ℤ) + 1).toNat) := by
  refine ⟨by decide, by decide, ?_⟩
  intro h
  rw [show ((5400 : ℚ) / 3600) = 3 / 2 by norm_num] at h
  rw [show (⌈(3 / 2 : ℚ)⌉ : ℤ) = 2 from by
    rw [Int.ceil_eq_iff]
    norm_num] at h
  rw [show (prepareTimeSeriesFeatures c4Events).length = 2 from by decide] at h
  simp at h

/-- C4 (amended): for a non-empty event list spanning `spanSeconds` seconds,
1-hour bucketing produces exactly `floor(span/3600) + 1` contiguous buckets
(consecutive window starts differ by exactly 3600 s), and the `total_events`
of all rows sum to the number of input events.  The claimed `ceil(T)+1`
count agrees only when the span is a whole number of hours. -/
theorem claim_C4 :
    ∀ events : List SecurityEvent, events ≠ [] →
      (prepareTimeSeriesFeatures events).length
        = (spanSeconds events / 3600).toNat + 1 ∧
      (∀ i : ℕ, i + 1 < (prepareTimeSeriesFeatures events).length →
        ((prepareTimeSeriesFeatures events)[i + 1]?).map (fun r => r.timestamp)
          = ((prepareTimeSeriesFeatures events)[i]?).map (fun r => r.timestamp + 3600)) ∧
      ((prepareTimeSeriesFeatures events).map (fun r => r.total_events)).sum
        = events.length := by
  intro events hne
  have hts : events.map (fun e => e.timestamp) ≠ [] := by simpa using hne
  have hse : listMin (events.map (fun e => e.timestamp))
      ≤ listMax (events.map (fun e => e.timestamp)) := listMin_le_listMax hts
  have hrows : prepareTimeSeriesFeatures events
      = ((List.range (((listMax (events.map (fun e => e.timestamp))
            - listMin (events.map (fun e => e.timestamp))) / 3600).toNat + 1)).map
          (fun k : ℕ => listMin (events.map (fun e => e.timestamp)) + 3600 * (k : ℤ))).map
          (fun c => calculateWindowFeatures (windowEvents events c) c) := by
    rw [prepareTimeSeriesFeatures, if_neg hne, bucketStarts_eq hse]
  have hspan : spanSeconds events
      = listMax (events.map (fun e => e.timestamp))
        - listMin (events.map (fun e => e.timestamp)) := rfl
  refine ⟨?_, ?_, ?_⟩
  · rw [hrows, hspan]
    simp
  · intro i hi
    rw [hrows] at hi ⊢
    simp only [List.length_map, List.length_range] at hi
    simp [hi, Nat.lt_of_succ_lt hi, calculateWindowFeatures]
    try push_cast
    try ring
  · rw [hrows, List.map_map, List.map_map]
    have hcomp : ((fun r : WindowRow => r.total_events)
          ∘ (fun c => calculateWindowFeatures (windowEvents events c) c))
          ∘ (fun k : ℕ => listMin (events.map (fun e => e.timestamp)) + 3600 * (k : ℤ))
        = fun k : ℕ => (windowEvents events
            (listMin (events.map (fun e => e.timestamp)) + 3600 * (k : ℤ))).length := rfl
    rw [hcomp]
    apply windows_partition
    intro ev hev
    constructor
    · exact listMin_le_of_mem (List.mem_map.mpr ⟨ev, hev, rfl⟩)
    · exact le_listMax_of_mem (List.mem_map.mpr ⟨ev, hev, rfl⟩)

/-- C4 (witness): the amended bucketing facts at the concrete two-event
list spanning 1.5 hours. -/
theorem claim_C4_witness :
    (prepareTimeSeriesFeatures c4Events).length
      = (spanSeconds c4Events / 3600).toNat + 1 ∧
    ((prepareTimeSeriesFeatures c4Events)[1]?).map (fun r => r.timestamp)
      = ((prepareTimeSeriesFeatures c4Events)[0]?).map (fun r => r.timestamp + 3600) ∧
    ((prepareTimeSeriesFeatures c4Events).map (fun r => r.total_events)).sum
      = c4Events.length :=
  ⟨(claim_C4 c4Events (by decide)).1,
   (claim_C4 c4Events (by decide)).2.1 0 (by decide),
   (claim_C4 c4Events (by decide)).2.2⟩

/-- Embedding of `PredictiveEngine._calculate_prediction_confidence`
(ai/predictive_engine.py lines 453-460): the decimal constants 0.9, 0.05,
0.3 and 1.0 are the exact rationals 9/10, 1/20, 3/10 and 1. -/
def calculatePredictionConfidence (hourOffset : ℕ) : ℚ :=
  let base_confidence : ℚ := 9 / 10
  let decay_rate : ℚ := 1 / 20
  let confidence := base_confidence * (1 - decay_rate * hourOffset)
  max (3 / 10) (min 1 confidence)

/-- C5 (counterexample): at horizon 2 the code returns
0.9·(1 − 0.05·2) = 0.81, while the claimed geometric decay gives
0.9·0.95² = 0.81225 (the 0.3 floor binds in neither). -/
theorem claim_C5_counterexample :
    calculatePredictionConfidence 2
      ≠ max (3 / 10 : ℚ) ((9 / 10) * (19 / 20) ^ 2) := by
  rw [calculatePredictionConfidence]
  norm_num

/-- C5 (amended): the confidence decays linearly, not geometrically:
it equals clamp(0.9·(1 − 0.05·h), 0.3, 1.0).  As the claim states, it always
lies in [0.3, 1.0] and is non-increasing in the horizon offset. -/
theorem claim_C5 :
    (∀ h : ℕ, calculatePredictionConfidence h
      = max (3 / 10) (min 1 ((9 / 10) * (1 - (1 / 20) * (h : ℚ))))) ∧
    (∀ h : ℕ, 1 ≤ h →
      3 / 10 ≤ calculatePredictionConfidence h ∧ calculatePredictionConfidence h ≤ 1) ∧
    (∀ g h : ℕ, g ≤ h →
      calculatePredictionConfidence h ≤ calculatePredictionConfidence g) := by
  refine ⟨fun h => rfl, ?_, ?_⟩
  · intro h _
    constructor
    · exact le_max_left _ _
    · apply max_le
      · norm_num
      · exact min_le_left _ _
  · intro g h hgh
    apply max_le_max le_rfl
    apply min_le_min le_rfl
    apply mul_le_mul_of_nonneg_left _ (by norm_num : (0 : ℚ) ≤ 9 / 10)
    have : (g : ℚ) ≤ (h : ℚ) := by exact_mod_cast hgh
    nlinarith

/-- C5 (witness): bounds at horizon 1 and monotonicity from horizon 1 to 2. -/
theorem claim_C5_witness :
    (3 / 10 ≤ calculatePredictionConfidence 1 ∧ calculatePredictionConfidence 1 ≤ 1) ∧
    calculatePredictionConfidence 2 ≤ calculatePredictionConfidence 1 :=
  ⟨claim_C5.2.1 1 (by decide), claim_C5.2.2 1 2 (by decide)⟩

/-- Successive timestamp differences after the first element. -/
def consecutiveDiffsGo (prev : ℤ) : List ℤ → List ℤ
  | [] => []
  | x :: xs => (x - prev) :: consecutiveDiffsGo x xs

/-- Embedding of `ip_events['timestamp'].diff().fillna(0)`: the first
difference is 0, the rest are consecutive differences in frame order. -/
def consecutiveDiffs : List ℤ → List ℤ
  | [] => []
  | t :: rest => 0 :: consecutiveDiffsGo t rest

/-- One per-IP feature row of `AnomalyDetector.extract_features`
(ai/anomaly_detector.py lines 42-115). -/
structure IPFeatureRow where
  source_ip : String
  total_events : ℕ
  event_frequency : ℚ
  time_span_hours : ℚ
  unique_event_types : ℕ
  unique_usernames : ℕ
  critical_ratio : ℚ
  high_ratio : ℚ
  hour_spread : ℕ
  day_spread : ℕ
  avg_time_between_events : ℚ
  time_variance : ℚ
  burst_ratio : ℚ
  is_weekend : Bool
  is_night_time : Bool
deriving DecidableEq, Repr

/-- Feature computation for one source IP.  `time_variance` uses the pandas
sample variance (ddof = 1), which is NaN for a single event and is later
replaced by 0 through `fillna(0)` in `train_models`; the post-fillna value 0
is used directly here. -/
def extractFeatureRow (l : List SecurityEvent) (ip : String) : IPFeatureRow :=
  let ts := l.map (fun e => e.timestamp)
  let time_span : ℚ := ((listMax ts - listMin ts : ℤ) : ℚ)
  let n := l.length
  let diffs := consecutiveDiffs ts
  let avg := (diffs.map (fun d => (d : ℚ))).sum / (n : ℚ)
  { source_ip := ip
    total_events := n
    event_frequency := (n : ℚ) / max (time_span / 3600) (1 / 10)
    time_span_hours := time_span / 3600
    unique_event_types := (firstDedup (l.map (fun e => e.event_type))).length
    unique_usernames := (firstDedup (l.map (fun e => e.username))).length
    critical_ratio := ((l.filter (fun e => e.severity == Sev.critical)).length : ℚ) / (n : ℚ)
    high_ratio := ((l.filter (fun e => e.severity == Sev.high)).length : ℚ) / (n : ℚ)
    hour_spread := (firstDedup (l.map (fun e => hourOf e.timestamp))).length
    day_spread := (firstDedup (l.map (fun e => weekdayOf e.timestamp))).length
    avg_time_between_events := avg
    time_variance :=
      if 2 ≤ n then (diffs.map (fun d => ((d : ℚ) - avg) ^ 2)).sum / ((n : ℚ) - 1) else 0
    burst_ratio := ((diffs.filter (fun d => decide (d < 60))).length : ℚ) / (n : ℚ)
    is_weekend :=
      match l with
      | [] => false
      | e :: _ => decide (5 ≤ weekdayOf e.timestamp)
    is_night_time :=
      l.any (fun e => decide (hourOf e.timestamp < 6))
        || l.any (fun e => decide (22 < hourOf e.timestamp)) }

/-- Embedding of `AnomalyDetector.extract_features`: one row per distinct
non-empty source IP, in order of first appearance (`unique()` order), built
from that IP's events. -/
def extractFeatures (events : List SecurityEvent) : List IPFeatureRow :=
  if events = [] then []
  else
    ((firstDedup (events.map (fun e => e.source_ip))).filter (fun ip => ip != "")).map
      (fun ip => extractFeatureRow (events.filter (fun e => e.source_ip == ip)) ip)

/-- Stand-in for a fitted scikit-learn estimator (IsolationForest, DBSCAN,
StandardScaler): the claims below only concern whether and on how many
samples a fit happened, never the fitted parameters themselves. -/
structure FittedModel where
  sampleCount : ℕ
deriving DecidableEq, Repr

/-- The mutable state of an `AnomalyDetector` instance touched by
`train_models`: the two estimators, the scaler, the baseline statistics and
the `is_trained` flag (ai/anomaly_detector.py lines 30-37).  The baseline
statistics are represented by the feature rows they are computed from. -/
structure AnomalyDetectorState where
  isolation_forest : Option FittedModel
  dbscan : Option FittedModel
  scaler_fitted : Bool
  baseline_features : Option (List IPFeatureRow)
  is_trained : Bool
deriving DecidableEq, Repr

/-- Embedding of `AnomalyDetector.train_models` (ai/anomaly_detector.py
lines 117-170) as a function of the fetched training events and the current
state: fewer than 100 events, or an empty feature frame, return `False`
without touching the state; otherwise the models are fitted and
`is_trained` is set. -/
def trainModels (events : List SecurityEvent) (st : AnomalyDetectorState) :
    Bool × AnomalyDetectorState :=
  if events.length < 100 then (false, st)
  else
    let features := extractFeatures events
    if features = [] then (false, st)
    else
      (true,
        { isolation_forest := some { sampleCount := features.length }
          dbscan := some { sampleCount := features.length }
          scaler_fitted := true
          baseline_features := some features
          is_trained := true })

/-- C6: training on a history of fewer than 100 events returns the typed
failure `False` (the embedding is a total function, so no exception is
possible) and leaves the whole detector state — in particular a previously
trained model — unchanged. -/
theorem claim_C6 :
    ∀ (events : List SecurityEvent) (st : AnomalyDetectorState),
      events.length < 100 → trainModels events st = (false, st) := by
  intro events st h
  rw [trainModels, if_pos h]

/-- A detector state that has already been trained once. -/
def c6PriorState : AnomalyDetectorState :=
  { isolation_forest := some { sampleCount := 150 }
    dbscan := some { sampleCount := 150 }
    scaler_fitted := true
    baseline_features := some []
    is_trained := true }

/-- C6 (witness): refusing to train on 5 events preserves a trained state. -/
theorem claim_C6_witness :
    trainModels c1BaseEvents c6PriorState = (false, c6PriorState) :=
  claim_C6 c1BaseEvents c6PriorState (by decide)

/-- The dict built by `BehavioralAnalyzer._get_suspicious_ip_details`
(ai/behavioral_analyzer.py lines 464-476). -/
structure SuspiciousIpDetails where
  event_count : ℕ
  time_span_seconds : ℤ
  unique_users_targeted : ℕ
  critical_events : ℕ
  event_rate_per_minute : ℚ
deriving DecidableEq, Repr

/-- Embedding of `_get_suspicious_ip_details`. -/
def getSuspiciousIpDetails (events : List SecurityEvent) : SuspiciousIpDetails :=
  let ts := events.map (fun e => e.timestamp)
  let span := listMax ts - listMin ts
  { event_count := events.length
    time_span_seconds := if 1 < ts.length then span else 0
    unique_users_targeted :=
      (firstDedup ((events.filter (fun e => e.username != "")).map (fun e => e.username))).length
    critical_events := (events.filter (fun e => e.severity == Sev.critical)).length
    event_rate_per_minute :=
      if 1 < ts.length then (events.length : ℚ) / max ((span : ℚ) / 60) 1 else 0 }

/-- One behavioral anomaly finding.  Only the new-IP branch is embedded, so
the `details` dict is always the suspicious-IP details. -/
structure BehavioralAnomaly where
  type : String
  entity : String
  entity_type : String
  severity : Sev
  description : String
  confidence : ℚ
  details : SuspiciousIpDetails
deriving DecidableEq, Repr

/-- Embedding of `BehavioralAnalyzer._is_suspicious_new_ip`
(ai/behavioral_analyzer.py lines 440-462): under 3 events nothing is
flagged; then the whole batch spanning strictly less than 60 seconds with
more than 10 events, more than 5 distinct non-empty usernames, or strictly
more than 50% critical events flags the IP. -/
def isSuspiciousNewIp (events : List SecurityEvent) : Bool :=
  if events.length < 3 then false
  else
    let ts := events.map (fun e => e.timestamp)
    let time_span := listMax ts - listMin ts
    if time_span < 60 ∧ 10 < events.length then true
    else
      let usernames :=
        firstDedup ((events.filter (fun e => e.username != "")).map (fun e => e.username))
      if 5 < usernames.length then true
      else
        let critical_count := (events.filter (fun e => e.severity == Sev.critical)).length
        if (events.length : ℚ) * (1 / 2) < (critical_count : ℚ) then true
        else false

/-- Embedding of the new-IP branch of `BehavioralAnalyzer._analyze_ip_anomalies`
(ai/behavioral_analyzer.py lines 321-337), taken when `ip` has no baseline:
with at least 5 events a baseline is recorded (a state change not visible in
the returned list) and a `suspicious_new_ip` anomaly is emitted exactly when
the heuristics flag the batch. -/
def analyzeIpAnomaliesNewIp (ip : String) (events : List SecurityEvent) :
    List BehavioralAnomaly :=
  if 5 ≤ events.length then
    if isSuspiciousNewIp events then
      [{ type := "suspicious_new_ip"
         entity := ip
         entity_type := "ip"
         severity := Sev.high
         description := s!"New IP {ip} showing suspicious behavior patterns"
         confidence := 8 / 10
         details := getSuspiciousIpDetails events }]
    else []
  else []

theorem half_lt_iff (n c : ℕ) : (n : ℚ) * (1 / 2) < (c : ℚ) ↔ n < 2 * c := by
  rw [mul_one_div, div_lt_iff (by norm_num : (0 : ℚ) < 2)]
  constructor
  · intro h
    have h2 : (n : ℚ) < ((2 * c : ℕ) : ℚ) := by push_cast; linarith
    exact_mod_cast h2
  · intro h
    have h2 : (n : ℚ) < ((2 * c : ℕ) : ℚ) := by exact_mod_cast h
    push_cast at h2
    linarith

/-- Eleven events within 50 seconds plus a twelfth 200 seconds in, all from
one IP with a single username and medium severity. -/
def c8MixedEvents : List SecurityEvent :=
  ((List.range 11).map
    (fun k => mkEvent (5 * (k : ℤ)) "ssh_failed_login" "203.0.113.9" "bob" Sev.medium))
  ++ [mkEvent 200 "ssh_failed_login" "203.0.113.9" "bob" Sev.medium]

/-- Characterization of the new-IP heuristics as a proposition free of
rational arithmetic (the >50%-critical float test is equivalent to
`2·critical > total`). -/
theorem isSuspiciousNewIp_iff (events : List SecurityEvent) :
    isSuspiciousNewIp events = true ↔
      (3 ≤ events.length ∧
        (spanSeconds events < 60 ∧ 10 < events.length
          ∨ 5 < (firstDedup ((events.filter (fun e => e.username != "")).map
              (fun e => e.username))).length
          ∨ events.length
              < 2 * (events.filter (fun e => e.severity == Sev.critical)).length)) := by
  by_cases h3 : events.length < 3
  · rw [isSuspiciousNewIp, if_pos h3]
    simp only [Bool.false_eq_true, false_iff]
    rintro ⟨h4, -⟩
    omega
  · rw [isSuspiciousNewIp, if_neg h3]
    simp only []
    split_ifs with h1 h2 hcrit
    · simp only [true_iff]
      exact ⟨by omega, Or.inl (by simpa [spanSeconds] using h1)⟩
    · simp only [true_iff]
      exact ⟨by omega, Or.inr (Or.inl h2)⟩
    · simp only [true_iff]
      refine ⟨by omega, Or.inr (Or.inr ?_)⟩
      exact (half_lt_iff _ _).mp hcrit
    · simp only [Bool.false_eq_true, false_iff]
      rintro ⟨-, hd | hd | hd⟩
      · exact h1 ⟨by simpa [spanSeconds] using hd.1, hd.2⟩
      · exact h2 hd
      · exact hcrit ((half_lt_iff _ _).mpr hd)

/-- C8 (counterexample): more than 10 of the batch's events (its first 11)
occur within a 60-second span, yet the heuristics do not flag the batch and
no `suspicious_new_ip` anomaly is emitted: the rapid-fire test looks at the
span of the whole batch (200 s here), not at any 60-second sub-window. -/
theorem claim_C8_counterexample :
    (c8MixedEvents.take 11).length = 11 ∧
    spanSeconds (c8MixedEvents.take 11) ≤ 60 ∧
    isSuspiciousNewIp c8MixedEvents = false ∧
    analyzeIpAnomaliesNewIp "203.0.113.9" c8MixedEvents = [] := by
  have hfalse : ¬(isSuspiciousNewIp c8MixedEvents = true) := by
    rw [isSuspiciousNewIp_iff]
    rintro ⟨-, h | h | h⟩ <;> revert h <;> decide
  refine ⟨by decide, by decide, Bool.eq_false_iff.mpr hfalse, ?_⟩
  rw [analyzeIpAnomaliesNewIp, if_pos (by decide : 5 ≤ c8MixedEvents.length),
    if_neg hfalse]

/-- C8 (amended): the new-entity heuristics flag a batch exactly when it has
at least 3 events and (the whole batch spans strictly less than 60 seconds
with more than 10 events, or more than 5 distinct non-empty usernames are
targeted, or strictly more than 50% of the events are critical); and any
15-event batch from a baseline-less IP spanning at most 30 seconds yields
exactly one `suspicious_new_ip` anomaly of high severity. -/
theorem claim_C8 :
    (∀ events : List SecurityEvent,
      isSuspiciousNewIp events = true ↔
        (3 ≤ events.length ∧
          (spanSeconds events < 60 ∧ 10 < events.length
            ∨ 5 < (firstDedup ((events.filter (fun e => e.username != "")).map
                (fun e => e.username))).length
            ∨ events.length
                < 2 * (events.filter (fun e => e.severity == Sev.critical)).length))) ∧
    (∀ (ip : String) (events : List SecurityEvent),
      events.length = 15 → spanSeconds events ≤ 30 →
      (analyzeIpAnomaliesNewIp ip events).map (fun a => (a.type, a.severity))
        = [("suspicious_new_ip", Sev.high)]) := by
  constructor
  · exact isSuspiciousNewIp_iff
  · intro ip events hlen hspan
    have hsus : isSuspiciousNewIp events = true := by
      rw [isSuspiciousNewIp, if_neg (by omega)]
      have h60 : listMax (events.map (fun e => e.timestamp))
          - listMin (events.map (fun e => e.timestamp)) < 60 := by
        have : spanSeconds events ≤ 30 := hspan
        rw [spanSeconds] at this
        omega
      rw [if_pos ⟨h60, by omega⟩]
    rw [analyzeIpAnomaliesNewIp, if_pos (by omega), if_pos hsus]
    simp

/-- Fifteen events two seconds apart (span 28 s) from one IP. -/
def c8FastEvents : List SecurityEvent :=
  (List.range 15).map
    (fun k => mkEvent (2 * (k : ℤ)) "ssh_failed_login" "198.51.100.77" "admin" Sev.medium)

/-- C8 (witness): the 15-events-in-30-seconds scenario at a concrete batch. -/
theorem claim_C8_witness :
    (analyzeIpAnomaliesNewIp "198.51.100.77" c8FastEvents).map
      (fun a => (a.type, a.severity)) = [("suspicious_new_ip", Sev.high)] :=
  claim_C8.2 "198.51.100.77" c8FastEvents (by decide) (by decide)

/-- Character classes appearing in the default patterns.  Python's \s is
[ \t\n\r\f\v] and \S its complement; `Char.isWhitespace` covers space, tab,
CR and LF, which agree on every character of the analysed log lines. -/
inductive CharCls where
  | digit
  | nonspace
  | space
deriving DecidableEq, Repr

def CharCls.test : CharCls → Char → Bool
  | CharCls.digit, ch => ch.isDigit
  | CharCls.nonspace, ch => !ch.isWhitespace
  | CharCls.space, ch => ch.isWhitespace

/-- Abstract syntax of the regular-expression fragment used by the default
patterns of `LogPatternMatcher._initialize_patterns`: case-insensitive
literals, greedy one-or-more character classes, greedy dot-star, named
groups, concatenation and ordered alternation. -/
inductive RE where
  | lit (s : String)
  | plus (c : CharCls)
  | dotStar
  | group (name : String) (r : RE)
  | seq (a b : RE)
  | alt (a b : RE)
deriving Repr

/-- Captured named groups of one match. -/
def RECaps : Type := List (String × String)

/-- Case-insensitive literal matching (the rules are compiled with
`re.IGNORECASE`). -/
def litGo (pat input : List Char) (k : List Char → Option RECaps) : Option RECaps :=
  match pat, input with
  | [], rest => k rest
  | _ :: _, [] => none
  | pc :: ps, ch :: rest =>
    if ch.toLower = pc.toLower then litGo ps rest k else none

/-- Greedy continuation of a one-or-more class match: extend first, then
fall back to the continuation at the current position. -/
def plusGo (c : CharCls) (input : List Char) (k : List Char → Option RECaps) :
    Option RECaps :=
  (match input with
   | ch :: tail => if c.test ch then plusGo c tail k else none
   | [] => none)
  <|> k input

/-- Greedy `.*`: consume as much as possible (any character except a
newline), backtracking one character at a time. -/
def dotStarGo (input : List Char) (k : List Char → Option RECaps) : Option RECaps :=
  (match input with
   | ch :: tail => if ch = '\n' then none else dotStarGo tail k
   | [] => none)
  <|> k input

/-- Backtracking matcher in continuation-passing style, implementing the
greedy leftmost semantics of Python `re` on the fragment above. -/
def reMatch : RE → RECaps → List Char → (RECaps → List Char → Option RECaps) →
    Option RECaps
  | RE.lit s, caps, input, k => litGo s.data input (fun rest => k caps rest)
  | RE.plus c, caps, input, k =>
    (match input with
     | ch :: rest => if c.test ch then plusGo c rest (fun rest2 => k caps rest2) else none
     | [] => none)
  | RE.dotStar, caps, input, k => dotStarGo input (fun rest => k caps rest)
  | RE.group name r, caps, input, k =>
    reMatch r caps input
      (fun caps2 rest =>
        k ((name, String.mk (input.take (input.length - rest.length))) :: caps2) rest)
  | RE.seq a b, caps, input, k =>
    reMatch a caps input (fun caps2 rest => reMatch b caps2 rest k)
  | RE.alt a b, caps, input, k =>
    (reMatch a caps input k) <|> (reMatch b caps input k)

/-- Leftmost search: try a match at each start position in order
(`re.search`). -/
def reSearchGo (r : RE) : List Char → Option RECaps
  | [] => reMatch r [] [] (fun caps _ => some caps)
  | ch :: rest =>
    (reMatch r [] (ch :: rest) (fun caps _ => some caps)) <|> reSearchGo r rest

/-- Embedding of `re.search(pattern, log_line, re.IGNORECASE)`, returning
the named captures on success. -/
def reSearch (r : RE) (s : String) : Option RECaps := reSearchGo r s.data

/-- Embedding of `match.groupdict().get(name, '')`: in every default
pattern each named group participates in any successful match. -/
def capGet (caps : RECaps) (name : String) : String :=
  match caps.find? (fun p => p.1 == name) with
  | some p => p.2
  | none => ""

/-- Concatenation of a pattern sequence. -/
def reCat : List RE → RE
  | [] => RE.lit ""
  | [r] => r
  | r :: rest => RE.seq r (reCat rest)

/-- Ordered alternation of a non-empty pattern list. -/
def reAlts : List RE → RE
  | [] => RE.lit ""
  | [r] => r
  | r :: rest => RE.alt r (reAlts rest)

/-- The sub-pattern `\d+\.\d+\.\d+\.\d+`. -/
def ipRE : RE :=
  reCat [RE.plus CharCls.digit, RE.lit ".", RE.plus CharCls.digit, RE.lit ".",
    RE.plus CharCls.digit, RE.lit ".", RE.plus CharCls.digit]

/-- The named group `(?P<ip>\d+\.\d+\.\d+\.\d+)`. -/
def ipGroup : RE := RE.group "ip" ipRE

/-- The named group `(?P<username>\S+)`. -/
def userGroup : RE := RE.group "username" (RE.plus CharCls.nonspace)

/-- A single-quote character as a string (ASCII 39). -/
def squoteStr : String := String.mk [Char.ofNat 39]

/-- A backquote character as a string (ASCII 96). -/
def backquoteStr : String := String.mk [Char.ofNat 96]

/-- Embedding of the `ThreatPattern` dataclass (models/events.py), with the
regex source text compiled to the fragment above. -/
structure ThreatPattern where
  name : String
  description : String
  regex : RE
  severity : Sev
  enabled : Bool := true
  threshold_count : ℕ := 5
  time_window : ℕ := 300
deriving Repr

/-- The default rule set of `LogPatternMatcher._initialize_patterns`
(core/patterns.py lines 19-115), with each regex transcribed
into the fragment above.  In the Directory Traversal rule the source text
escapes to exactly two branches, dot-dot-slash and the literal
dot-dot-backslash-pipe-%2e%2e. -/
def defaultPatterns : List ThreatPattern :=
  [{ name := "SSH Failed Login"
     description := "Failed SSH authentication attempts"
     regex := reCat [RE.lit "Failed password for ", userGroup, RE.lit " from ", ipGroup]
     severity := Sev.medium },
   { name := "SSH Invalid User"
     description := "SSH login attempts with invalid usernames"
     regex := reCat [RE.lit "Invalid user ", userGroup, RE.lit " from ", ipGroup]
     severity := Sev.high },
   { name := "Windows Failed Login"
     description := "Windows logon failures"
     regex := reCat [RE.lit "Logon Type:", RE.plus CharCls.space,
       RE.group "logon_type" (RE.plus CharCls.digit), RE.dotStar,
       RE.lit "Source Network Address:", RE.plus CharCls.space, ipGroup, RE.dotStar,
       RE.lit "Account Name:", RE.plus CharCls.space, userGroup]
     severity := Sev.medium },
   { name := "Rapid Failed Logins"
     description := "Multiple failed login attempts in short time"
     regex := reCat [RE.lit "authentication failure", RE.dotStar, RE.lit "user=", userGroup]
     severity := Sev.high
     threshold_count := 10
     time_window := 300 },
   { name := "SQL Injection Attempt"
     description := "Potential SQL injection in web logs"
     regex := reCat [ipGroup, RE.dotStar,
       reAlts [RE.lit "union", RE.lit "select", RE.lit "insert", RE.lit "delete",
         RE.lit "drop", RE.lit "exec"],
       RE.dotStar, reAlts [RE.lit squoteStr, RE.lit "--", RE.lit ";"]]
     severity := Sev.critical },
   { name := "Privilege Escalation"
     description := "Potential privilege escalation attempts"
     regex := reCat [userGroup, RE.dotStar,
       reAlts [RE.lit "sudo", RE.lit "su", RE.lit "admin", RE.lit "root"],
       RE.dotStar, reAlts [RE.lit "FAILED", RE.lit "denied"]]
     severity := Sev.high },
   { name := "Port Scanning"
     description := "Potential port scanning activity"
     regex := reCat [ipGroup, RE.dotStar,
       reAlts [RE.lit "connection refused", RE.lit "timeout", RE.lit "unreachable"]]
     severity := Sev.medium
     threshold_count := 20 },
   { name := "Suspicious File Access"
     description := "Access to sensitive system files"
     regex := reCat [userGroup, RE.dotStar,
       reAlts [RE.lit "/etc/passwd", RE.lit "/etc/shadow", RE.lit "/etc/hosts",
         RE.lit ".ssh/"]]
     severity := Sev.high },
   { name := "Command Injection"
     description := "Potential command injection attempts"
     regex := reCat [ipGroup, RE.dotStar,
       reAlts [RE.lit "|", RE.lit ";", RE.lit backquoteStr, RE.lit "$(", RE.lit "&&"]]
     severity := Sev.critical },
   { name := "Directory Traversal"
     description := "Directory traversal attack attempts"
     regex := reCat [ipGroup, RE.dotStar,
       reAlts [RE.lit "../", RE.lit "..\\|%2e%2e"]]
     severity := Sev.high },
   { name := "Failed Root Login"
     description := "Failed root login attempts"
     regex := reCat [RE.lit "Failed password for root from ", ipGroup]
     severity := Sev.critical },
   { name := "Multiple Authentication Failures"
     description := "Multiple authentication failures from same IP"
     regex := reCat [RE.lit "authentication failure", RE.dotStar, RE.lit "rhost=", ipGroup]
     severity := Sev.high
     threshold_count := 5 }]

/-- Lower-casing as done on rule names, character by character. -/
def toLowerStr (s : String) : String := String.mk (s.data.map Char.toLower)

/-- The `.replace(' ', '_')` applied to rule names. -/
def spacesToUnderscores (s : String) : String :=
  String.mk (s.data.map (fun c => if c = ' ' then '_' else c))

/-- Python `str.strip()`: whitespace removed from both ends. -/
def pyStrip (s : String) : String :=
  String.mk (((s.data.dropWhile Char.isWhitespace).reverse.dropWhile
    Char.isWhitespace).reverse)

/-- Embedding of `LogPatternMatcher.match_patterns` (core/patterns.py
lines 117-139): every enabled rule is tried against the line; each match
appends one event carrying the rule's lower-cased underscored name, the
captured ip and username, the stripped line and the rule's severity.  The
wall-clock timestamp and the local hostname are parameters. -/
def matchPatterns (patterns : List ThreatPattern) (logLine : String) (now : ℤ)
    (hostname logSource : String) : List SecurityEvent :=
  patterns.filterMap
    (fun p =>
      if p.enabled then
        match reSearch p.regex logLine with
        | some caps =>
          some { timestamp := now
                 event_type := spacesToUnderscores (toLowerStr p.name)
                 source_ip := capGet caps "ip"
                 username := capGet caps "username"
                 hostname := hostname
                 details := pyStrip logLine
                 severity := p.severity
                 log_source := logSource }
        | none => none
      else none)

/-- The test log line of claim C7. -/
def sshTestLine : String := "Failed password for admin from 192.168.1.100 port 22 ssh2"

set_option maxHeartbeats 4000000 in
/-- C7: matching the line `Failed password for admin from 192.168.1.100
port 22 ssh2` against the default rule set produces exactly one event — of
type `ssh_failed_login`, with source IP 192.168.1.100, username admin and
medium severity — for any wall-clock time, hostname and log source; and the
SSH Failed Login rule is the only enabled default rule matching the line. -/
theorem claim_C7 :
    ∀ (now : ℤ) (hostname logSource : String),
      matchPatterns defaultPatterns sshTestLine now hostname logSource
        = [{ timestamp := now
             event_type := "ssh_failed_login"
             source_ip := "192.168.1.100"
             username := "admin"
             hostname := hostname
             details := sshTestLine
             severity := Sev.medium
             log_source := logSource }] ∧
      (defaultPatterns.filter
        (fun p => p.enabled && (reSearch p.regex sshTestLine).isSome)).map
          (fun p => p.name) = ["SSH Failed Login"] := by
  intro now hostname logSource
  exact ⟨rfl, rfl⟩
